import Mathlib

/-!
Shallow embedding of the "Just Draft" application (src/app.py) and proofs of
the specification's claims about it.

The embedding covers:
* Python string helpers used by the code (`str.strip` truthiness);
* a model of the JSON values the application exchanges, together with models of
  `json.dumps(..., indent=2, ensure_ascii=False)` and `json.loads`;
* the extraction client `process_input` (content-part assembly, the fixed
  candidate-model list and the fallback loop), with the external network call
  abstracted as an environment `String → List ContentPart → CallResult` and the
  attempted calls recorded in a trace;
* the auth gate `check_password` / `password_entered`;
* the exporters `convert_to_markdown` and `convert_to_csv` (the latter models
  `pandas.DataFrame(...).to_csv(index=False).encode("utf-8-sig")` on records of
  optional strings, the only shapes the application produces).

Machine integers do not occur; all text is modelled as Lean `String`/`List Char`
(Unicode scalar values, matching Python `str` minus surrogates) and bytes as
`List Nat`.
-/

namespace JustDraft

/-! ## Python string helpers -/

/-- Characters removed by Python's default `str.strip` (Unicode whitespace). -/
def isPySpace (c : Char) : Bool :=
  [32, 9, 10, 13, 11, 12, 0x1C, 0x1D, 0x1E, 0x1F, 0x85, 0xA0, 0x1680,
   0x2000, 0x2001, 0x2002, 0x2003, 0x2004, 0x2005, 0x2006, 0x2007, 0x2008,
   0x2009, 0x200A, 0x2028, 0x2029, 0x202F, 0x205F, 0x3000].contains c.toNat

/-- Model of Python `str.strip()`: drop whitespace from both ends. -/
def pyStrip (s : String) : String :=
  String.mk (((s.toList.dropWhile isPySpace).reverse.dropWhile isPySpace).reverse)

/-- Truthiness of an optional Python string (`None` and `""` are falsy). -/
def pyTruthyOpt : Option String → Bool
  | none => false
  | some s => s != ""

/-! ## JSON values

Model of the JSON data exchanged with the model provider and written by the
exporters.  Numbers are modelled as integers only: the application's schema
(`category`/`action`/`priority`/`deadline`/`content`) carries only strings and
`null`, so floating-point literals never occur in the modelled domain. -/

inductive Json where
  | null
  | bool (b : Bool)
  | num (n : Int)
  | str (s : String)
  | arr (items : List Json)
  | obj (members : List (String × Json))

/-! ### Model of `json.dumps(..., indent=2, ensure_ascii=False)` -/

/-- Indentation: `n` spaces. -/
def spaces (n : Nat) : List Char := List.replicate n ' '

/-- Lowercase hexadecimal digit, as emitted by CPython's `\uXXXX` escapes. -/
def hexDigitChar (n : Nat) : Char :=
  if n < 10 then Char.ofNat (48 + n) else Char.ofNat (87 + n)

/-- CPython's JSON string escaping with `ensure_ascii=False`: quote and
backslash are escaped, control characters use the short escapes or `\u00XX`,
everything else (including non-ASCII) is emitted literally. -/
def escapeChar (c : Char) : List Char :=
  if c = '"' then ['\\', '"']
  else if c = '\\' then ['\\', '\\']
  else if c = Char.ofNat 8 then ['\\', 'b']
  else if c = Char.ofNat 9 then ['\\', 't']
  else if c = Char.ofNat 10 then ['\\', 'n']
  else if c = Char.ofNat 12 then ['\\', 'f']
  else if c = Char.ofNat 13 then ['\\', 'r']
  else if c.toNat < 32 then
    '\\' :: 'u' :: '0' :: '0' :: hexDigitChar (c.toNat / 16)
      :: [hexDigitChar (c.toNat % 16)]
  else [c]

/-- Escape every character of a string body. -/
def escapeList : List Char → List Char
  | [] => []
  | c :: cs => escapeChar c ++ escapeList cs

/-- A JSON string literal: quote, escaped body, quote. -/
def dumpStringChars (s : String) : List Char :=
  '"' :: (escapeList s.toList ++ ['"'])

/-- The characters of a literal token. -/
def lit (s : String) : List Char := s.toList

/-- Join chunks with a separator (the semantics of `List.intercalate`). -/
def joinSep (sep : List Char) : List (List Char) → List Char
  | [] => []
  | [x] => x
  | x :: xs => x ++ sep ++ joinSep sep xs

mutual

/-- `json.dumps` with `indent=2`, `ensure_ascii=False` at indentation `ind`. -/
def dumpVal (ind : Nat) : Json → List Char
  | .null => lit ("null")
  | .bool b => lit (if b then "true" else "false")
  | .num n => lit (toString n)
  | .str s => dumpStringChars s
  | .arr [] => lit ("[]")
  | .arr (x :: xs) =>
      ['[', '\n'] ++ joinSep [',', '\n'] (dumpItems (ind + 2) (x :: xs))
        ++ ['\n'] ++ spaces ind ++ [']']
  | .obj [] => ['{', '}']
  | .obj (m :: ms) =>
      ['{', '\n'] ++ joinSep [',', '\n'] (dumpMembers (ind + 2) (m :: ms))
        ++ ['\n'] ++ spaces ind ++ ['}']

/-- One indented chunk per array item. -/
def dumpItems (ind : Nat) : List Json → List (List Char)
  | [] => []
  | x :: xs => (spaces ind ++ dumpVal ind x) :: dumpItems ind xs

/-- One indented `"key": value` chunk per object member. -/
def dumpMembers (ind : Nat) : List (String × Json) → List (List Char)
  | [] => []
  | (k, v) :: ms =>
      (spaces ind ++ dumpStringChars k ++ [':', ' '] ++ dumpVal ind v) :: dumpMembers ind ms

end

/-- Model of `json.dumps(j, indent=2, ensure_ascii=False)`. -/
def dumps (j : Json) : String := String.mk (dumpVal 0 j)

/-! ### Model of `json.loads` -/

/-- JSON insignificant whitespace. -/
def isJsonWs (c : Char) : Bool := c = ' ' || c = '\t' || c = '\n' || c = '\r'

/-- Skip insignificant whitespace. -/
def ws (l : List Char) : List Char := l.dropWhile isJsonWs

/-- Value of one hexadecimal digit. -/
def hexVal (c : Char) : Option Nat :=
  if '0' ≤ c ∧ c ≤ '9' then some (c.toNat - 48)
  else if 'a' ≤ c ∧ c ≤ 'f' then some (c.toNat - 87)
  else if 'A' ≤ c ∧ c ≤ 'F' then some (c.toNat - 55)
  else none

/-- Parse the body of a JSON string literal (after the opening quote), up to and
including the closing quote; returns the decoded characters and the rest of the
input.  Raw control characters are rejected, as in strict `json.loads`. -/
def parseStringBody : List Char → Option (List Char × List Char)
  | [] => none
  | c :: rest =>
      if c = '"' then some ([], rest)
      else if c = '\\' then
        match rest with
        | 'u' :: h1 :: h2 :: h3 :: h4 :: rest2 => do
            let d1 ← hexVal h1
            let d2 ← hexVal h2
            let d3 ← hexVal h3
            let d4 ← hexVal h4
            let (s, r) ← parseStringBody rest2
            some (Char.ofNat (4096 * d1 + 256 * d2 + 16 * d3 + d4) :: s, r)
        | e :: rest2 => do
            let u ← (match e with
              | '"' => some '"'
              | '\\' => some '\\'
              | '/' => some '/'
              | 'b' => some (Char.ofNat 8)
              | 'f' => some (Char.ofNat 12)
              | 'n' => some '\n'
              | 'r' => some (Char.ofNat 13)
              | 't' => some '\t'
              | _ => none)
            let (s, r) ← parseStringBody rest2
            some (u :: s, r)
        | [] => none
      else if c.toNat < 32 then none
      else (parseStringBody rest).map (fun p => (c :: p.1, p.2))

/-- Accumulate decimal digits. -/
def parseDigitsAux (acc : Nat) : List Char → Nat × List Char
  | [] => (acc, [])
  | c :: rest =>
      if c.isDigit then parseDigitsAux (10 * acc + (c.toNat - 48)) rest
      else (acc, c :: rest)

/-- Parse an integer JSON number (optional minus sign, one or more digits).
Fractions and exponents are outside the modelled domain (see `Json.num`). -/
def parseNumber : List Char → Option (Int × List Char)
  | '-' :: c :: rest =>
      if c.isDigit then
        let (n, r) := parseDigitsAux (c.toNat - 48) rest
        some (-(n : Int), r)
      else none
  | c :: rest =>
      if c.isDigit then
        let (n, r) := parseDigitsAux (c.toNat - 48) rest
        some ((n : Int), r)
      else none
  | [] => none

mutual

/-- Recursive-descent JSON value parser; `fuel` bounds the recursion depth and
is decremented on every recursive call. -/
def parseValue : Nat → List Char → Option (Json × List Char)
  | 0, _ => none
  | fuel + 1, l =>
      match ws l with
      | 'n' :: 'u' :: 'l' :: 'l' :: rest => some (.null, rest)
      | 't' :: 'r' :: 'u' :: 'e' :: rest => some (.bool true, rest)
      | 'f' :: 'a' :: 'l' :: 's' :: 'e' :: rest => some (.bool false, rest)
      | '"' :: rest => do
          let (s, r) ← parseStringBody rest
          some (.str (String.mk s), r)
      | '[' :: rest =>
          (match ws rest with
           | ']' :: r2 => some (.arr [], r2)
           | _ => do
               let (items, r2) ← parseItems fuel rest
               some (.arr items, r2))
      | '{' :: rest =>
          (match ws rest with
           | '}' :: r2 => some (.obj [], r2)
           | _ => do
               let (ms, r2) ← parseMembers fuel rest
               some (.obj ms, r2))
      | rest => do
          let (n, r) ← parseNumber rest
          some (.num n, r)

/-- Parse one or more comma-separated array items up to the closing bracket. -/
def parseItems : Nat → List Char → Option (List Json × List Char)
  | 0, _ => none
  | fuel + 1, l => do
      let (v, r) ← parseValue fuel l
      match ws r with
      | ',' :: r2 => do
          let (vs, r3) ← parseItems fuel r2
          some (v :: vs, r3)
      | ']' :: r2 => some ([v], r2)
      | _ => none

/-- Parse one or more comma-separated object members up to the closing brace. -/
def parseMembers : Nat → List Char → Option (List (String × Json) × List Char)
  | 0, _ => none
  | fuel + 1, l =>
      match ws l with
      | '"' :: r => do
          let (k, r1) ← parseStringBody r
          (match ws r1 with
           | ':' :: r2 => do
               let (v, r3) ← parseValue fuel r2
               (match ws r3 with
                | ',' :: r4 => do
                    let (ms, r5) ← parseMembers fuel r4
                    some ((String.mk k, v) :: ms, r5)
                | '}' :: r4 => some ([(String.mk k, v)], r4)
                | _ => none)
           | _ => none)
      | _ => none

end

/-- Model of `json.loads`: parse one JSON value, then require only whitespace
to remain.  The fuel `length + 1` dominates the recursion depth of any input
the application round-trips (proved below for exported Results). -/
def json_loads (s : String) : Option Json :=
  let cs := s.toList
  match parseValue (cs.length + 1) cs with
  | some (j, rest) => if ws rest = [] then some j else none
  | none => none

/-- The value parser consumes exactly `val` and yields `v`. -/
def valueExact (f : Nat) (val : List Char) (v : Json) : Prop :=
  ∀ X, parseValue f (val ++ X) = some (v, X)

/-- The characters that follow the first item chunk inside a dumped array:
separator, newline, item indentation, next chunk — ending in `close`. -/
def itemsRest (close : List Char) : List (List Char) → List Char
  | [] => close
  | c :: cs => ',' :: ('\n' :: (spaces 4 ++ (c ++ itemsRest close cs)))

/-- Executable substring containment used to state the "contains" claims. -/
def listStarts (pat hay : List Char) : Bool :=
  match pat, hay with
  | [], _ => true
  | p :: ps, q :: qs => (p = q) && listStarts ps qs
  | _ :: _, [] => false

/-- Does `hay` contain `needle` as a contiguous substring? -/
def containsSub (needle : List Char) : List Char → Bool
  | [] => listStarts needle []
  | c :: rest => listStarts needle (c :: rest) || containsSub needle rest

/-- Split a character list at newlines (the lines of a text). -/
def splitLines : List Char → List (List Char)
  | [] => [[]]
  | c :: rest =>
      if c = '\n' then [] :: splitLines rest
      else
        match splitLines rest with
        | l :: ls => (c :: l) :: ls
        | [] => [[c]]

/-- Concatenation of a list of strings (in order). -/
def strConcat : List String → String
  | [] => ""
  | s :: ss => s ++ strConcat ss

/-! ## Extraction client (`process_input`)

The outbound network call (`genai.GenerativeModel(...).generate_content`) is
abstracted as an environment mapping a model name and the assembled content
parts to either a response body or a raised exception; everything in the
`try` block up to `response.text` is one environment call.  The attempted
calls are recorded in a trace so that "no call made" / "no later candidate
attempted" are statable. -/

/-- An uploaded image: Streamlit exposes its declared MIME type and bytes. -/
structure ImageFile where
  type : String
  data : List Nat
deriving DecidableEq

/-- A recorded audio clip (WAV bytes from `st.audio_input`). -/
structure AudioFile where
  data : List Nat
deriving DecidableEq

/-- One element of the `content_parts` list sent to the provider: either plain
text or an inline binary payload with a MIME type. -/
inductive ContentPart where
  | text (s : String)
  | inlineData (mime_type : String) (data : List Nat)
deriving DecidableEq

/-- Outcome of one provider call: the response body text, or an exception. -/
inductive CallResult where
  | ok (text : String)
  | exn (msg : String)

/-- The exception recorded in `last_error`: a provider exception, or the
`json.JSONDecodeError` raised by `json.loads` on a malformed body. -/
inductive LastErr where
  | callExn (msg : String)
  | decodeErr
deriving DecidableEq

/-- Result of `process_input`: the returned JSON (or the `RuntimeError`
carrying the last recorded error on exhaustion), plus the trace of attempted
provider calls in order. -/
structure ProcOutcome where
  result : Except (Option LastErr) Json
  calls : List (String × List ContentPart)

/-- The fixed, ordered candidate model list from the source. -/
def candidate_models : List String :=
  ["gemini-3-flash-preview", "gemini-1.5-flash"]

/-- Substring test (`needle in haystack` on Python strings). -/
def strContains (needle haystack : String) : Bool :=
  containsSub needle.toList haystack.toList

/-- The static multimodal-capability check from the source:
`"1.5" in name or "2.0" in name or "2.5" in name or "gemini-3" in name`. -/
def is_multimodal (name : String) : Bool :=
  strContains ("1.5") name || strContains ("2.0") name ||
  strContains ("2.5") name || strContains ("gemini-3") name

/-- Assembly of `content_parts`: text first (the user text if non-empty,
otherwise the generic instruction), then the image, then the audio. -/
def content_parts (user_text : String) (image : Option ImageFile)
    (audio : Option AudioFile) : List ContentPart :=
  (if user_text ≠ "" then [ContentPart.text user_text]
   else [ContentPart.text ("Analyze this content and extract tasks/memos.")])
  ++ (match image with
      | some f => [ContentPart.inlineData f.type f.data]
      | none => [])
  ++ (match audio with
      | some f => [ContentPart.inlineData ("audio/wav") f.data]
      | none => [])

/-- The fallback loop over the candidate models.  A candidate is skipped
(without an error and without a call) when media is present and the candidate
is not multimodal-capable; otherwise the provider is called: on a response the
body is parsed, a parse failure records `decodeErr` and continues; on an
exception the message is recorded and the loop continues.  (The source
inspects the message for "404"/"not found" but continues in both branches, so
the loop continues regardless of the error type.)  Exhaustion raises the
aggregate `RuntimeError` carrying the last recorded error. -/
def tryModels (env : String → List ContentPart → CallResult) (media : Bool)
    (parts : List ContentPart) :
    List String → Option LastErr → ProcOutcome
  | [], last => ⟨.error last, []⟩
  | m :: rest, last =>
      if media ∧ ¬ is_multimodal m then tryModels env media parts rest last
      else
        match env m parts with
        | .exn msg =>
            let o := tryModels env media parts rest (some (.callExn msg))
            ⟨o.result, (m, parts) :: o.calls⟩
        | .ok t =>
            match json_loads t with
            | some j => ⟨.ok j, [(m, parts)]⟩
            | none =>
                let o := tryModels env media parts rest (some .decodeErr)
                ⟨o.result, (m, parts) :: o.calls⟩

/-- `process_input` from the source: return `{}` immediately when no text
(after strip), no image and no audio is present; otherwise assemble the
content parts and run the fallback loop over the candidate models. -/
def process_input (env : String → List ContentPart → CallResult)
    (user_text : String) (image : Option ImageFile) (audio : Option AudioFile) :
    ProcOutcome :=
  if pyStrip user_text = "" ∧ image = none ∧ audio = none then
    ⟨.ok (Json.obj []), []⟩
  else
    tryModels env (image.isSome || audio.isSome)
      (content_parts user_text image audio) candidate_models none

/-! ## Session/auth gate (`check_password`) -/

/-- The session state the gate reads and writes: the text-input value under
the `"password"` key and the `"password_correct"` flag (absent before the
first submission). -/
structure AuthState where
  password : Option String
  password_correct : Option Bool
deriving DecidableEq

/-- What `check_password` produces for the caller and the page: whether access
is granted, and which error messages are rendered. -/
structure GateView where
  allowed : Bool
  config_error : Bool
  wrong_password_error : Bool
deriving DecidableEq

/-- The visible phases of the gate. -/
inductive AuthPhase where
  | AwaitingPassword
  | Authenticated
deriving DecidableEq

/-- The `password_entered` callback: compare the entered password with the
secret, set `password_correct`, and delete the stored password on success. -/
def password_entered (secret : String) (st : AuthState) : AuthState :=
  match st.password with
  | some p =>
      if p = secret then { password := none, password_correct := some true }
      else { password := some p, password_correct := some false }
  | none => st

/-- One password submission: the widget stores the entered text under the
`"password"` key, then the `on_change` callback `password_entered` runs. -/
def submit (secret entered : String) (st : AuthState) : AuthState :=
  password_entered secret { st with password := some entered }

/-- `check_password` from the source: with no configured secret, render the
configuration error and deny; otherwise grant access iff the session is
already marked correct, rendering the wrong-password error when a failed
submission is recorded. -/
def check_password (app_password : Option String) (st : AuthState) : GateView :=
  match app_password with
  | none => ⟨false, true, false⟩
  | some _ =>
      if st.password_correct = some true then ⟨true, false, false⟩
      else ⟨false, false, st.password_correct = some false⟩

/-- The gate's phase as a function of the session state. -/
def phase (st : AuthState) : AuthPhase :=
  if st.password_correct = some true then .Authenticated else .AwaitingPassword

/-! ## Data model (Task / Memo / Result) -/

/-- A task record per the data model: `category`, `action`, `priority` are
strings, `deadline` is a string or `null`. -/
structure Task where
  category : String
  action : String
  priority : String
  deadline : Option String
deriving DecidableEq

/-- A memo record: a single `content` string. -/
structure Memo where
  content : String
deriving DecidableEq

/-- A Result: ordered tasks and memos. -/
structure Result where
  tasks : List Task
  memos : List Memo
deriving DecidableEq

/-- The JSON value for one task (dict keys in the schema's insertion order). -/
def taskToJson (t : Task) : Json :=
  .obj [("category", .str t.category), ("action", .str t.action),
        ("priority", .str t.priority),
        ("deadline", match t.deadline with
                     | some d => .str d
                     | none => .null)]

/-- The JSON value for one memo. -/
def memoToJson (m : Memo) : Json :=
  .obj [("content", .str m.content)]

/-- The JSON object `{"tasks": [...], "memos": [...]}` serialized by the
export action. -/
def resultToJson (r : Result) : Json :=
  .obj [("tasks", .arr (r.tasks.map taskToJson)),
        ("memos", .arr (r.memos.map memoToJson))]

/-- Read one task back from its JSON form. -/
def taskFromJson : Json → Option Task
  | .obj [("category", .str c), ("action", .str a), ("priority", .str p),
          ("deadline", d)] =>
      match d with
      | .str s => some ⟨c, a, p, some s⟩
      | .null => some ⟨c, a, p, none⟩
      | _ => none
  | _ => none

/-- Read a list of tasks back. -/
def tasksFromJson : List Json → Option (List Task)
  | [] => some []
  | j :: js => do
      let t ← taskFromJson j
      let ts ← tasksFromJson js
      some (t :: ts)

/-- Read one memo back from its JSON form. -/
def memoFromJson : Json → Option Memo
  | .obj [("content", .str s)] => some ⟨s⟩
  | _ => none

/-- Read a list of memos back. -/
def memosFromJson : List Json → Option (List Memo)
  | [] => some []
  | j :: js => do
      let m ← memoFromJson j
      let ms ← memosFromJson js
      some (m :: ms)

/-- Read a Result back from the exported JSON object. -/
def jsonToResult : Json → Option Result
  | .obj [("tasks", .arr ts), ("memos", .arr ms)] => do
      let tasks ← tasksFromJson ts
      let memos ← memosFromJson ms
      some ⟨tasks, memos⟩
  | _ => none

/-! ## Exporters -/

/-- `convert_to_markdown` from the source: fixed heading, a Tasks section with
one bullet per task, then a Memos section with one bullet per memo. -/
def convert_to_markdown (tasks : List Task) (memos : List Memo) : String :=
  let md := "# Brain Cleaner Results\n\n"
  let md := md ++ "## ✅ Tasks\n"
  let md := tasks.foldl (fun md t =>
    let p_icon := if t.priority = "High" then "🔥" else "🔹"
    let md := md ++ "- [" ++ t.category ++ "] " ++ t.action ++ " " ++ p_icon
    let md := if pyTruthyOpt t.deadline
              then md ++ " (📅 " ++ t.deadline.getD ("") ++ ")" else md
    md ++ "\n") md
  let md := md ++ "\n## 💡 Memos\n"
  let md := memos.foldl (fun md m => md ++ "- " ++ m.content ++ "\n") md
  md

/-- A record passed to `convert_to_csv`: field names with optional string
values (`none` models Python `None`, rendered as an empty CSV field). -/
abbrev CsvRecord := List (String × Option String)

/-- The dynamically-typed return of `convert_to_csv`: a text string or bytes. -/
inductive CsvOut where
  | text (s : String)
  | bytes (b : List Nat)
deriving DecidableEq

/-- Columns of `pandas.DataFrame(list-of-dicts)`: keys in order of first
appearance across the records. -/
def csvColumns (data : List CsvRecord) : List String :=
  data.foldl (fun cols r =>
    cols ++ (r.map Prod.fst).filter (fun k => !(cols.contains k))) []

/-- Look a field up in a record (`none` when the key is absent). -/
def lookupField (r : CsvRecord) (k : String) : Option (Option String) :=
  (r.find? (fun p => p.1 == k)).map Prod.snd

/-- Minimal quoting: a field needs quotes iff it contains a separator, quote
or line break. -/
def csvNeedsQuote (s : String) : Bool :=
  s.toList.any (fun c => c = ',' || c = '"' || c = '\n' || c = '\r')

/-- Double embedded quotes. -/
def csvEscapeQuotes : List Char → List Char
  | [] => []
  | c :: cs =>
      if c = '"' then '"' :: '"' :: csvEscapeQuotes cs
      else c :: csvEscapeQuotes cs

/-- Render one CSV field with minimal quoting. -/
def csvField (s : String) : String :=
  if csvNeedsQuote s then String.mk ('"' :: (csvEscapeQuotes s.toList ++ ['"']))
  else s

/-- Render one cell: a missing key or `None` value is an empty field. -/
def csvCell : Option (Option String) → String
  | none => ""
  | some none => ""
  | some (some s) => csvField s

/-- One data row, terminated by a newline. -/
def csvRow (cols : List String) (r : CsvRecord) : String :=
  String.intercalate (",") (cols.map (fun k => csvCell (lookupField r k))) ++ "\n"

/-- The text produced by `DataFrame(data).to_csv(index=False)`: header row
then one row per record, each newline-terminated. -/
def csvText (data : List CsvRecord) : String :=
  let cols := csvColumns data
  String.intercalate (",") (cols.map csvField) ++ "\n"
    ++ String.join (data.map (csvRow cols))

/-- UTF-8 encoding of one character. -/
def utf8Char (c : Char) : List Nat :=
  let n := c.toNat
  if n < 0x80 then [n]
  else if n < 0x800 then [0xC0 + n / 64, 0x80 + n % 64]
  else if n < 0x10000 then
    [0xE0 + n / 4096, 0x80 + (n / 64) % 64, 0x80 + n % 64]
  else
    [0xF0 + n / 262144, 0x80 + (n / 4096) % 64, 0x80 + (n / 64) % 64, 0x80 + n % 64]

/-- UTF-8 encoding of a character list. -/
def utf8Bytes : List Char → List Nat
  | [] => []
  | c :: cs => utf8Char c ++ utf8Bytes cs

/-- The byte-order mark prepended by Python's `utf-8-sig` codec. -/
def bomBytes : List Nat := [0xEF, 0xBB, 0xBF]

/-- `convert_to_csv` from the source: the empty record list returns the empty
string; otherwise the CSV text is encoded as UTF-8 with a byte-order mark and
returned as bytes. -/
def convert_to_csv (data : List CsvRecord) : CsvOut :=
  if data = [] then .text ("")
  else .bytes (bomBytes ++ utf8Bytes (csvText data).toList)

/-! ## Lemmas: whitespace skipping -/

theorem ws_nil : ws [] = [] := rfl

theorem ws_cons_of_ws {c : Char} (h : isJsonWs c = true) (l : List Char) :
    ws (c :: l) = ws l := by
  simp [ws, List.dropWhile_cons, h]

theorem ws_cons_of_not {c : Char} (h : isJsonWs c = false) (l : List Char) :
    ws (c :: l) = c :: l := by
  simp [ws, List.dropWhile_cons, h]

theorem ws_spaces (n : Nat) (l : List Char) : ws (spaces n ++ l) = ws l := by
  induction n with
  | zero => rfl
  | succ n ih =>
      simpa [spaces, List.replicate_succ, ws_cons_of_ws (by decide : isJsonWs ' ' = true)]
        using ih

theorem ws_newline (l : List Char) : ws ('\n' :: l) = ws l :=
  ws_cons_of_ws (by decide) l

theorem ws_idem (l : List Char) : ws (ws l) = ws l := by
  induction l with
  | nil => rfl
  | cons c l ih =>
      by_cases h : isJsonWs c = true
      · rw [ws_cons_of_ws h, ih]
      · rw [ws_cons_of_not (by simpa using h), ws_cons_of_not (by simpa using h)]

/-! ## Lemmas: string-literal round trip -/

theorem hexVal_hexDigitChar : ∀ n, n < 16 → hexVal (hexDigitChar n) = some n := by
  decide

theorem psb_close (X : List Char) : parseStringBody ('"' :: X) = some ([], X) := by
  rw [parseStringBody.eq_def]
  simp

theorem psb_esc_quote (X : List Char) :
    parseStringBody ('\\' :: '"' :: X)
      = (parseStringBody X).bind (fun p => some ('"' :: p.1, p.2)) := by
  rw [parseStringBody.eq_def]
  simp

theorem psb_esc_backslash (X : List Char) :
    parseStringBody ('\\' :: '\\' :: X)
      = (parseStringBody X).bind (fun p => some ('\\' :: p.1, p.2)) := by
  rw [parseStringBody.eq_def]
  simp

theorem psb_esc_b (X : List Char) :
    parseStringBody ('\\' :: 'b' :: X)
      = (parseStringBody X).bind (fun p => some (Char.ofNat 8 :: p.1, p.2)) := by
  rw [parseStringBody.eq_def]
  simp

theorem psb_esc_t (X : List Char) :
    parseStringBody ('\\' :: 't' :: X)
      = (parseStringBody X).bind (fun p => some ('\t' :: p.1, p.2)) := by
  rw [parseStringBody.eq_def]
  simp

theorem psb_esc_n (X : List Char) :
    parseStringBody ('\\' :: 'n' :: X)
      = (parseStringBody X).bind (fun p => some ('\n' :: p.1, p.2)) := by
  rw [parseStringBody.eq_def]
  simp

theorem psb_esc_f (X : List Char) :
    parseStringBody ('\\' :: 'f' :: X)
      = (parseStringBody X).bind (fun p => some (Char.ofNat 12 :: p.1, p.2)) := by
  rw [parseStringBody.eq_def]
  simp

theorem psb_esc_r (X : List Char) :
    parseStringBody ('\\' :: 'r' :: X)
      = (parseStringBody X).bind (fun p => some (Char.ofNat 13 :: p.1, p.2)) := by
  rw [parseStringBody.eq_def]
  simp

theorem psb_esc_u (a b : Char) (X : List Char) :
    parseStringBody ('\\' :: 'u' :: '0' :: '0' :: a :: b :: X)
      = (hexVal a).bind (fun d3 => (hexVal b).bind (fun d4 =>
          (parseStringBody X).bind (fun p =>
            some (Char.ofNat (4096 * 0 + 256 * 0 + 16 * d3 + d4) :: p.1, p.2)))) := by
  rw [parseStringBody.eq_def]
  simp [hexVal]

theorem psb_other {c : Char} (h1 : ¬ c = '"') (h2 : ¬ c = '\\')
    (h3 : ¬ c.toNat < 32) (X : List Char) :
    parseStringBody (c :: X) = (parseStringBody X).map (fun p => (c :: p.1, p.2)) := by
  rw [parseStringBody.eq_def]
  simp [if_neg h1, if_neg h2, if_neg h3]

theorem parseStringBody_escape (cs rest : List Char) :
    parseStringBody (escapeList cs ++ '"' :: rest) = some (cs, rest) := by
  induction cs with
  | nil => simp [escapeList, psb_close]
  | cons c cs ih =>
      show parseStringBody ((escapeChar c ++ escapeList cs) ++ '"' :: rest) = _
      rw [List.append_assoc]
      by_cases h1 : c = '"'
      · subst h1
        simp [escapeChar, psb_esc_quote, ih]
      · by_cases h2 : c = '\\'
        · subst h2
          simp [escapeChar, psb_esc_backslash, ih]
        · by_cases h3 : c = Char.ofNat 8
          · subst h3
            simp [escapeChar, psb_esc_b, ih]
          · by_cases h4 : c = Char.ofNat 9
            · subst h4
              simp [escapeChar, psb_esc_t, ih]
            · by_cases h5 : c = Char.ofNat 10
              · subst h5
                simp [escapeChar, psb_esc_n, ih]
              · by_cases h6 : c = Char.ofNat 12
                · subst h6
                  simp [escapeChar, psb_esc_f, ih]
                · by_cases h7 : c = Char.ofNat 13
                  · subst h7
                    simp [escapeChar, psb_esc_r, ih]
                  · by_cases h8 : c.toNat < 32
                    · have e1 : hexVal (hexDigitChar (c.toNat / 16)) = some (c.toNat / 16) :=
                        hexVal_hexDigitChar _ (by omega)
                      have e2 : hexVal (hexDigitChar (c.toNat % 16)) = some (c.toNat % 16) :=
                        hexVal_hexDigitChar _ (by omega)
                      simp only [escapeChar, if_neg h1, if_neg h2, if_neg h3, if_neg h4,
                        if_neg h5, if_neg h6, if_neg h7, if_pos h8, List.cons_append,
                        List.nil_append]
                      rw [psb_esc_u, e1, e2, ih]
                      have hv : 16 * (c.toNat / 16) + c.toNat % 16 = c.toNat := by omega
                      simp [hv]
                    · simp only [escapeChar, if_neg h1, if_neg h2, if_neg h3, if_neg h4,
                        if_neg h5, if_neg h6, if_neg h7, if_neg h8, List.cons_append,
                        List.nil_append]
                      rw [psb_other h1 h2 h8, ih]
                      rfl

/-! ## Lemmas: value-parser steps -/

theorem mk_toList (s : String) : String.mk s.toList = s := rfl

theorem pv_ws (f : Nat) (l : List Char) : parseValue f l = parseValue f (ws l) := by
  cases f with
  | zero => rfl
  | succ f =>
      simp only [parseValue.eq_def]
      rw [ws_idem]

theorem pm_ws (f : Nat) (l : List Char) : parseMembers f l = parseMembers f (ws l) := by
  cases f with
  | zero => rfl
  | succ f =>
      conv_lhs => rw [parseMembers.eq_def]
      conv_rhs => rw [parseMembers.eq_def]
      dsimp only
      rw [ws_idem]

theorem pv_space (f : Nat) (X : List Char) :
    parseValue f (' ' :: X) = parseValue f X := by
  rw [pv_ws, ws_cons_of_ws (by decide), ← pv_ws]

theorem pm_skip (f n : Nat) (X : List Char) :
    parseMembers f ('\n' :: (spaces n ++ X)) = parseMembers f X := by
  rw [pm_ws, ws_newline, ws_spaces, ← pm_ws]

theorem ws_dumpString (k : String) (Y : List Char) :
    ws (dumpStringChars k ++ Y) = dumpStringChars k ++ Y := by
  show ws ('"' :: ((escapeList k.toList ++ ['"']) ++ Y)) = _
  rw [ws_cons_of_not (by decide)]
  rfl

theorem pv_null (f : Nat) (X : List Char) :
    parseValue (f + 1) ('n' :: 'u' :: 'l' :: 'l' :: X) = some (.null, X) := by
  rw [parseValue.eq_def]
  dsimp only
  rw [ws_cons_of_not (by decide)]
  rfl

theorem pv_str (f : Nat) (s : String) (X : List Char) :
    parseValue (f + 1) (dumpStringChars s ++ X) = some (.str s, X) := by
  show parseValue (f + 1) ('"' :: ((escapeList s.toList ++ ['"']) ++ X)) = _
  rw [parseValue.eq_def]
  dsimp only
  rw [ws_cons_of_not (by decide)]
  simp only [List.append_assoc, List.cons_append, List.nil_append]
  simp [parseStringBody_escape, mk_toList]

theorem pv_arr_nil (f : Nat) (X : List Char) :
    parseValue (f + 1) ('[' :: ']' :: X) = some (.arr [], X) := by
  rw [parseValue.eq_def]
  dsimp only
  rw [ws_cons_of_not (by decide)]
  rfl

theorem pv_arr_objs (f : Nat) (R S : List Char) (h : ws R = '{' :: S) :
    parseValue (f + 1) ('[' :: R)
      = (parseItems f R).bind (fun p => some (.arr p.1, p.2)) := by
  rw [parseValue.eq_def]
  dsimp only
  rw [ws_cons_of_not (by decide)]
  show (match ws R with
        | ']' :: r2 => some (Json.arr [], r2)
        | _ => (parseItems f R).bind (fun p => some (.arr p.1, p.2))) = _
  rw [h]
  rfl

theorem pv_obj_str (f : Nat) (R : List Char) (key : String) (S : List Char)
    (h : ws R = dumpStringChars key ++ S) :
    parseValue (f + 1) ('{' :: R)
      = (parseMembers f R).bind (fun p => some (.obj p.1, p.2)) := by
  rw [parseValue.eq_def]
  dsimp only
  rw [ws_cons_of_not (by decide)]
  show (match ws R with
        | '}' :: r2 => some (Json.obj [], r2)
        | _ => (parseMembers f R).bind (fun p => some (.obj p.1, p.2))) = _
  rw [h]
  show (match '"' :: ((escapeList key.toList ++ ['"']) ++ S) with
        | '}' :: r2 => some (Json.obj [], r2)
        | _ => (parseMembers f R).bind (fun p => some (.obj p.1, p.2))) = _
  rfl

theorem ve_str (f : Nat) (s : String) : valueExact (f + 1) (dumpStringChars s) (.str s) :=
  fun X => pv_str f s X

theorem ve_null (f : Nat) : valueExact (f + 1) ['n', 'u', 'l', 'l'] .null :=
  fun X => pv_null f X

theorem ve_lit_null (f : Nat) : valueExact (f + 1) (lit ("null")) .null :=
  fun X => pv_null f X

theorem ve_pad (f n : Nat) {val : List Char} {v : Json} (h : valueExact f val v) :
    valueExact f (spaces n ++ val) v := by
  intro X
  rw [List.append_assoc, pv_ws, ws_spaces, ← pv_ws, h]

theorem parseItems_cons {f : Nat} {val : List Char} {v : Json} {after tail : List Char}
    {vs : List Json} {r : List Char}
    (hv : valueExact f val v) (ha : ws after = ',' :: tail)
    (ht : parseItems f tail = some (vs, r)) :
    parseItems (f + 1) (val ++ after) = some (v :: vs, r) := by
  rw [parseItems.eq_def]
  dsimp only
  rw [hv after]
  show (match ws after with
        | ',' :: r2 => (parseItems f r2).bind (fun q => some (v :: q.1, q.2))
        | ']' :: r2 => some ([v], r2)
        | _ => none) = _
  rw [ha]
  show (parseItems f tail).bind (fun q => some (v :: q.1, q.2)) = _
  rw [ht]
  rfl

theorem parseItems_last {f : Nat} {val : List Char} {v : Json} {after rest : List Char}
    (hv : valueExact f val v) (ha : ws after = ']' :: rest) :
    parseItems (f + 1) (val ++ after) = some ([v], rest) := by
  rw [parseItems.eq_def]
  dsimp only
  rw [hv after]
  show (match ws after with
        | ',' :: r2 => (parseItems f r2).bind (fun q => some (v :: q.1, q.2))
        | ']' :: r2 => some ([v], r2)
        | _ => none) = _
  rw [ha]
  rfl

theorem parseMembers_cons {f : Nat} (key : String) {val : List Char} {v : Json}
    {after tail : List Char} {ms : List (String × Json)} {r : List Char}
    (hv : valueExact f val v) (ha : ws after = ',' :: tail)
    (ht : parseMembers f tail = some (ms, r)) :
    parseMembers (f + 1) (dumpStringChars key ++ ':' :: ' ' :: (val ++ after))
      = some ((key, v) :: ms, r) := by
  rw [parseMembers.eq_def]
  dsimp only
  rw [ws_dumpString]
  simp only [dumpStringChars, List.cons_append, List.append_assoc, List.nil_append]
  simp only [parseStringBody_escape]
  simp only [Option.bind_eq_bind, Option.some_bind]
  rw [ws_cons_of_not (by decide : isJsonWs ':' = false)]
  simp [pv_space, show ∀ X, parseValue f (val ++ X) = some (v, X) from hv, ha, ht, mk_toList]


theorem parseMembers_last {f : Nat} (key : String) {val : List Char} {v : Json}
    {after rest : List Char}
    (hv : valueExact f val v) (ha : ws after = '}' :: rest) :
    parseMembers (f + 1) (dumpStringChars key ++ ':' :: ' ' :: (val ++ after))
      = some ([(key, v)], rest) := by
  rw [parseMembers.eq_def]
  dsimp only
  rw [ws_dumpString]
  simp only [dumpStringChars, List.cons_append, List.append_assoc, List.nil_append]
  simp only [parseStringBody_escape]
  simp only [Option.bind_eq_bind, Option.some_bind]
  rw [ws_cons_of_not (by decide : isJsonWs ':' = false)]
  simp [pv_space, show forall X, parseValue f (val ++ X) = some (v, X) from hv, ha, mk_toList]

/-! ## Lemmas: object and array shapes as the dumper emits them -/

theorem ve_pad2 (f n : Nat) {val : List Char} {v : Json} (h : valueExact f val v) :
    valueExact f ('\n' :: (spaces n ++ val)) v := by
  intro X
  show parseValue f ('\n' :: (spaces n ++ val) ++ X) = _
  rw [List.cons_append, List.append_assoc, pv_ws, ws_newline, ws_spaces, ← pv_ws, h]

theorem pv_obj_step (f n : Nat) (key : String) {T : List Char} :
    parseValue (f + 1) ('{' :: '\n' :: (spaces n ++ (dumpStringChars key ++ T)))
      = (parseMembers f (dumpStringChars key ++ T)).bind
          (fun p => some (.obj p.1, p.2)) := by
  have hR : ws ('\n' :: (spaces n ++ (dumpStringChars key ++ T)))
      = dumpStringChars key ++ T := by
    rw [ws_newline, ws_spaces, ws_dumpString]
  rw [pv_obj_str f _ key _ hR, pm_ws, hR]

theorem members_chain_cons (f n : Nat) (key : String) {val : List Char} {v : Json}
    {ms : List (String × Json)} {T X : List Char}
    (hv : valueExact f val v)
    (ht : parseMembers f T = some (ms, X)) :
    parseMembers (f + 1)
      (dumpStringChars key ++ ':' :: ' ' :: (val ++ (',' :: ('\n' :: (spaces n ++ T)))))
      = some ((key, v) :: ms, X) := by
  have ht2 : parseMembers f ('\n' :: (spaces n ++ T)) = some (ms, X) := by
    rw [pm_skip, ht]
  exact parseMembers_cons key hv (ws_cons_of_not (by decide) _) ht2

theorem members_chain_last (f n : Nat) (key : String) {val : List Char} {v : Json}
    {X : List Char}
    (hv : valueExact f val v) :
    parseMembers (f + 1)
      (dumpStringChars key ++ ':' :: ' ' :: (val ++ ('\n' :: (spaces n ++ ('}' :: X)))))
      = some ([(key, v)], X) := by
  have ha : ws ('\n' :: (spaces n ++ ('}' :: X))) = '}' :: X := by
    rw [ws_newline, ws_spaces, ws_cons_of_not (by decide)]
  exact parseMembers_last key hv ha

theorem ve_task (i f : Nat) (t : Task) :
    valueExact (f + 6) (dumpVal i (taskToJson t)) (taskToJson t) := by
  obtain ⟨c, a, p, d⟩ := t
  cases d with
  | some s =>
      intro X
      show parseValue (f + 6) (dumpVal i (taskToJson ⟨c, a, p, some s⟩) ++ X) = _
      simp only [taskToJson, dumpVal, dumpMembers, joinSep, List.append_assoc,
        List.cons_append, List.nil_append]
      rw [show f + 6 = (f + 5) + 1 from rfl]
      rw [pv_obj_step (f + 5) (i + 2) ("category")]
      rw [show f + 5 = (f + 4) + 1 from rfl]
      rw [members_chain_cons (f + 4) (i + 2) ("category") (ve_str (f + 3) c)
        (members_chain_cons (f + 3) (i + 2) ("action") (ve_str (f + 2) a)
          (members_chain_cons (f + 2) (i + 2) ("priority") (ve_str (f + 1) p)
            (members_chain_last (f + 1) i ("deadline") (ve_str f s))))]
      rfl
  | none =>
      intro X
      show parseValue (f + 6) (dumpVal i (taskToJson ⟨c, a, p, none⟩) ++ X) = _
      simp only [taskToJson, dumpVal, dumpMembers, joinSep, List.append_assoc,
        List.cons_append, List.nil_append]
      rw [show f + 6 = (f + 5) + 1 from rfl]
      rw [pv_obj_step (f + 5) (i + 2) ("category")]
      rw [show f + 5 = (f + 4) + 1 from rfl]
      rw [members_chain_cons (f + 4) (i + 2) ("category") (ve_str (f + 3) c)
        (members_chain_cons (f + 3) (i + 2) ("action") (ve_str (f + 2) a)
          (members_chain_cons (f + 2) (i + 2) ("priority") (ve_str (f + 1) p)
            (members_chain_last (f + 1) i ("deadline") (ve_lit_null f))))]
      rfl

theorem pv_arr_objs' (f : Nat) {R S : List Char} (h : ws R = '{' :: S) :
    parseValue (f + 1) ('[' :: R)
      = (parseItems f R).bind (fun p => some (.arr p.1, p.2)) :=
  pv_arr_objs f R S h

theorem join_items_shape (close : List Char) :
    ∀ (us : List Json) (cu : List Char),
      joinSep [',', '\n'] ((spaces 4 ++ cu) :: dumpItems 4 us) ++ close
        = spaces 4 ++ (cu ++ itemsRest close (us.map (dumpVal 4))) := by
  intro us
  induction us with
  | nil =>
      intro cu
      simp [dumpItems, joinSep, itemsRest, List.append_assoc]
  | cons u us ih =>
      intro cu
      simp only [dumpItems, joinSep, List.map, itemsRest, List.append_assoc,
        List.cons_append, List.nil_append]
      rw [ih (dumpVal 4 u)]

theorem items_chain_last (f : Nat) {val close X : List Char} {v : Json}
    (hv : valueExact f val v) (hc : ws close = ']' :: X) :
    parseItems (f + 1) ('\n' :: (spaces 4 ++ (val ++ close))) = some ([v], X) :=
  parseItems_last (ve_pad2 f 4 hv) hc

theorem items_chain_cons (f : Nat) {val : List Char} {v : Json} {vs : List Json}
    {T X : List Char}
    (hv : valueExact f val v)
    (ht : parseItems f ('\n' :: (spaces 4 ++ T)) = some (vs, X)) :
    parseItems (f + 1) ('\n' :: (spaces 4 ++ (val ++ (',' :: ('\n' :: (spaces 4 ++ T))))))
      = some (v :: vs, X) :=
  parseItems_cons (ve_pad2 f 4 hv) (ws_cons_of_not (by decide) _) ht

theorem ve_memo (i f : Nat) (m : Memo) :
    valueExact (f + 3) (dumpVal i (memoToJson m)) (memoToJson m) := by
  obtain ⟨s⟩ := m
  intro X
  show parseValue (f + 3) (dumpVal i (memoToJson ⟨s⟩) ++ X) = _
  simp only [memoToJson, dumpVal, dumpMembers, joinSep, List.append_assoc,
    List.cons_append, List.nil_append]
  rw [show f + 3 = (f + 2) + 1 from rfl]
  rw [pv_obj_step (f + 2) (i + 2) ("content")]
  rw [show f + 2 = (f + 1) + 1 from rfl]
  rw [members_chain_last (f + 1) i ("content") (ve_str f s)]
  rfl

theorem tasks_chain :
    ∀ (ts : List Task) (t : Task) (f : Nat) (X close : List Char),
      ws close = ']' :: X →
      parseItems (f + 7 * ts.length + 7)
        ('\n' :: (spaces 4 ++ (dumpVal 4 (taskToJson t)
          ++ itemsRest close ((ts.map taskToJson).map (dumpVal 4)))))
        = some ((t :: ts).map taskToJson, X) := by
  intro ts
  induction ts with
  | nil =>
      intro t f X close hc
      simp only [List.map, itemsRest, List.length_nil, Nat.mul_zero, Nat.add_zero]
      rw [show f + 7 = (f + 6) + 1 from rfl]
      exact items_chain_last (f + 6) (ve_task 4 f t) hc
  | cons u us ih =>
      intro t f X close hc
      simp only [List.map, itemsRest, List.length_cons]
      have hfu : f + 7 * (us.length + 1) + 7 = ((f + 6) + 7 * us.length + 7) + 1 := by
        omega
      rw [hfu]
      have hv : valueExact ((f + 6) + 7 * us.length + 7) (dumpVal 4 (taskToJson t))
          (taskToJson t) := by
        have h0 := ve_task 4 (f + 7 * us.length + 7) t
        rwa [show f + 7 * us.length + 7 + 6 = f + 6 + 7 * us.length + 7 from by omega] at h0
      exact items_chain_cons _ hv (ih u (f + 6) X close hc)

theorem memos_chain :
    ∀ (ms : List Memo) (m : Memo) (f : Nat) (X close : List Char),
      ws close = ']' :: X →
      parseItems (f + 4 * ms.length + 4)
        ('\n' :: (spaces 4 ++ (dumpVal 4 (memoToJson m)
          ++ itemsRest close ((ms.map memoToJson).map (dumpVal 4)))))
        = some ((m :: ms).map memoToJson, X) := by
  intro ms
  induction ms with
  | nil =>
      intro m f X close hc
      simp only [List.map, itemsRest, List.length_nil, Nat.mul_zero, Nat.add_zero]
      rw [show f + 4 = (f + 3) + 1 from rfl]
      exact items_chain_last (f + 3) (ve_memo 4 f m) hc
  | cons u us ih =>
      intro m f X close hc
      simp only [List.map, itemsRest, List.length_cons]
      have hfu : f + 4 * (us.length + 1) + 4 = ((f + 3) + 4 * us.length + 4) + 1 := by
        omega
      rw [hfu]
      have hv : valueExact ((f + 3) + 4 * us.length + 4) (dumpVal 4 (memoToJson m))
          (memoToJson m) := by
        have h0 := ve_memo 4 (f + 4 * us.length + 4) m
        rwa [show f + 4 * us.length + 4 + 3 = f + 3 + 4 * us.length + 4 from by omega] at h0
      exact items_chain_cons _ hv (ih u (f + 3) X close hc)

theorem dump_task_head (n : Nat) (t : Task) :
    dumpVal n (taskToJson t)
      = '{' :: ('\n' :: (joinSep [',', '\n'] (dumpMembers (n + 2)
          [("category", Json.str t.category), ("action", Json.str t.action),
           ("priority", Json.str t.priority),
           ("deadline", match t.deadline with
                        | some d => Json.str d
                        | none => Json.null)])
          ++ ('\n' :: (spaces n ++ ['}'])))) := by
  simp [taskToJson, dumpVal, List.cons_append, List.append_assoc]

theorem dump_memo_head (n : Nat) (m : Memo) :
    dumpVal n (memoToJson m)
      = '{' :: ('\n' :: (joinSep [',', '\n'] (dumpMembers (n + 2)
          [("content", Json.str m.content)])
          ++ ('\n' :: (spaces n ++ ['}'])))) := by
  simp [memoToJson, dumpVal, List.cons_append, List.append_assoc]

theorem ve_arr_nil (f : Nat) : valueExact (f + 1) ['[', ']'] (.arr []) :=
  fun X => pv_arr_nil f X

theorem dump_arr_cons2 (x : Json) (xs : List Json) :
    dumpVal 2 (.arr (x :: xs))
      = '[' :: ('\n' :: (joinSep [',', '\n'] ((spaces 4 ++ dumpVal 4 x) :: dumpItems 4 xs)
          ++ ('\n' :: (spaces 2 ++ [']'])))) := by
  show dumpVal 2 (.arr (x :: xs))
      = '[' :: ('\n' :: (joinSep [',', '\n']
          ((spaces (2 + 2) ++ dumpVal (2 + 2) x) :: dumpItems (2 + 2) xs)
          ++ ('\n' :: (spaces 2 ++ [']']))))
  simp [dumpVal, dumpItems, List.cons_append, List.append_assoc]

theorem ve_tasksArr (f : Nat) (t : Task) (ts : List Task) :
    valueExact ((f + 7 * ts.length + 7) + 1)
      (dumpVal 2 (.arr ((t :: ts).map taskToJson))) (.arr ((t :: ts).map taskToJson)) := by
  intro X
  show parseValue ((f + 7 * ts.length + 7) + 1)
      (dumpVal 2 (.arr ((t :: ts).map taskToJson)) ++ X) = _
  simp only [List.map]
  rw [dump_arr_cons2 (taskToJson t) (List.map taskToJson ts)]
  simp only [List.cons_append, List.append_assoc, List.nil_append]
  rw [join_items_shape ('\n' :: (spaces 2 ++ (']' :: X))) (List.map taskToJson ts)
    (dumpVal 4 (taskToJson t))]
  have hws : ws ('\n' :: (spaces 4 ++ (dumpVal 4 (taskToJson t)
      ++ itemsRest ('\n' :: (spaces 2 ++ (']' :: X)))
           ((List.map taskToJson ts).map (dumpVal 4)))))
      = '{' :: (('\n' :: (joinSep [',', '\n'] (dumpMembers (4 + 2)
          [("category", Json.str t.category), ("action", Json.str t.action),
           ("priority", Json.str t.priority),
           ("deadline", match t.deadline with
                        | some d => Json.str d
                        | none => Json.null)])
          ++ ('\n' :: (spaces 4 ++ ['}']))))
        ++ itemsRest ('\n' :: (spaces 2 ++ (']' :: X)))
            ((List.map taskToJson ts).map (dumpVal 4))) := by
    rw [ws_newline, ws_spaces, dump_task_head 4 t, List.cons_append,
      ws_cons_of_not (by decide)]
  rw [pv_arr_objs' (f + 7 * ts.length + 7) hws]
  rw [tasks_chain ts t f X ('\n' :: (spaces 2 ++ (']' :: X)))
    (by rw [ws_newline, ws_spaces, ws_cons_of_not (by decide)])]
  rfl

theorem ve_memosArr (f : Nat) (m : Memo) (ms : List Memo) :
    valueExact ((f + 4 * ms.length + 4) + 1)
      (dumpVal 2 (.arr ((m :: ms).map memoToJson))) (.arr ((m :: ms).map memoToJson)) := by
  intro X
  show parseValue ((f + 4 * ms.length + 4) + 1)
      (dumpVal 2 (.arr ((m :: ms).map memoToJson)) ++ X) = _
  simp only [List.map]
  rw [dump_arr_cons2 (memoToJson m) (List.map memoToJson ms)]
  simp only [List.cons_append, List.append_assoc, List.nil_append]
  rw [join_items_shape ('\n' :: (spaces 2 ++ (']' :: X))) (List.map memoToJson ms)
    (dumpVal 4 (memoToJson m))]
  have hws : ws ('\n' :: (spaces 4 ++ (dumpVal 4 (memoToJson m)
      ++ itemsRest ('\n' :: (spaces 2 ++ (']' :: X)))
           ((List.map memoToJson ms).map (dumpVal 4)))))
      = '{' :: (('\n' :: (joinSep [',', '\n'] (dumpMembers (4 + 2)
          [("content", Json.str m.content)])
          ++ ('\n' :: (spaces 4 ++ ['}']))))
        ++ itemsRest ('\n' :: (spaces 2 ++ (']' :: X)))
            ((List.map memoToJson ms).map (dumpVal 4))) := by
    rw [ws_newline, ws_spaces, dump_memo_head 4 m, List.cons_append,
      ws_cons_of_not (by decide)]
  rw [pv_arr_objs' (f + 4 * ms.length + 4) hws]
  rw [memos_chain ms m f X ('\n' :: (spaces 2 ++ (']' :: X)))
    (by rw [ws_newline, ws_spaces, ws_cons_of_not (by decide)])]
  rfl

theorem ve_tasks_value (g : Nat) (ts : List Task) :
    valueExact ((g + 7 * ts.length) + 1) (dumpVal 2 (.arr (ts.map taskToJson)))
      (.arr (ts.map taskToJson)) := by
  cases ts with
  | nil =>
      simp only [List.length_nil, Nat.mul_zero, Nat.add_zero, List.map]
      intro X
      rw [show dumpVal 2 (Json.arr []) = ['[', ']'] from by simp [dumpVal, lit]]
      exact ve_arr_nil g X
  | cons t ts' =>
      simp only [List.length_cons]
      have h0 := ve_tasksArr g t ts'
      rwa [show g + 7 * ts'.length + 7 = g + 7 * (ts'.length + 1) from by omega] at h0

theorem ve_memos_value (g : Nat) (ms : List Memo) :
    valueExact ((g + 4 * ms.length) + 1) (dumpVal 2 (.arr (ms.map memoToJson)))
      (.arr (ms.map memoToJson)) := by
  cases ms with
  | nil =>
      simp only [List.length_nil, Nat.mul_zero, Nat.add_zero, List.map]
      intro X
      rw [show dumpVal 2 (Json.arr []) = ['[', ']'] from by simp [dumpVal, lit]]
      exact ve_arr_nil g X
  | cons m ms' =>
      simp only [List.length_cons]
      have h0 := ve_memosArr g m ms'
      rwa [show g + 4 * ms'.length + 4 = g + 4 * (ms'.length + 1) from by omega] at h0

theorem dump_result_shape (A B : Json) (X : List Char) :
    dumpVal 0 (.obj [("tasks", A), ("memos", B)]) ++ X
      = '{' :: '\n' :: (spaces 2 ++ (dumpStringChars ("tasks") ++ ':' :: ' ' ::
          (dumpVal 2 A ++ (',' :: ('\n' :: (spaces 2 ++ (dumpStringChars ("memos")
            ++ ':' :: ' ' ::
              (dumpVal 2 B ++ ('\n' :: (spaces 0 ++ ('}' :: X))))))))))) := by
  simp [dumpVal, dumpMembers, joinSep, List.cons_append, List.append_assoc]

theorem ve_result (f : Nat) (r : Result) :
    valueExact (f + (7 * r.tasks.length + 4 * r.memos.length + 8))
      (dumpVal 0 (resultToJson r)) (resultToJson r) := by
  obtain ⟨ts, ms⟩ := r
  intro X
  show parseValue (f + (7 * ts.length + 4 * ms.length + 8))
      (dumpVal 0 (Json.obj [("tasks", Json.arr (ts.map taskToJson)),
        ("memos", Json.arr (ms.map memoToJson))]) ++ X)
    = some (Json.obj [("tasks", Json.arr (ts.map taskToJson)),
        ("memos", Json.arr (ms.map memoToJson))], X)
  rw [dump_result_shape]
  rw [show f + (7 * ts.length + 4 * ms.length + 8)
      = (f + (7 * ts.length + 4 * ms.length + 7)) + 1 from by omega]
  rw [pv_obj_step (f + (7 * ts.length + 4 * ms.length + 7)) 2 ("tasks")]
  rw [show f + (7 * ts.length + 4 * ms.length + 7)
      = (f + (7 * ts.length + 4 * ms.length + 6)) + 1 from by omega]
  have hv_tasks : valueExact (f + (7 * ts.length + 4 * ms.length + 6))
      (dumpVal 2 (.arr (ts.map taskToJson))) (.arr (ts.map taskToJson)) := by
    have h0 := ve_tasks_value (f + 4 * ms.length + 5) ts
    rwa [show f + 4 * ms.length + 5 + 7 * ts.length + 1
        = f + (7 * ts.length + 4 * ms.length + 6) from by omega] at h0
  have hv_memos : valueExact (f + (7 * ts.length + 4 * ms.length + 5))
      (dumpVal 2 (.arr (ms.map memoToJson))) (.arr (ms.map memoToJson)) := by
    have h0 := ve_memos_value (f + 7 * ts.length + 4) ms
    rwa [show f + 7 * ts.length + 4 + 4 * ms.length + 1
        = f + (7 * ts.length + 4 * ms.length + 5) from by omega] at h0
  have ht : parseMembers (f + (7 * ts.length + 4 * ms.length + 6))
      (dumpStringChars ("memos") ++ ':' :: ' ' ::
        (dumpVal 2 (.arr (ms.map memoToJson)) ++ ('\n' :: (spaces 0 ++ ('}' :: X)))))
      = some ([("memos", Json.arr (ms.map memoToJson))], X) := by
    rw [show f + (7 * ts.length + 4 * ms.length + 6)
        = (f + (7 * ts.length + 4 * ms.length + 5)) + 1 from by omega]
    exact members_chain_last (f + (7 * ts.length + 4 * ms.length + 5)) 0 ("memos")
      hv_memos
  rw [members_chain_cons (f + (7 * ts.length + 4 * ms.length + 6)) 2 ("tasks")
    hv_tasks ht]
  rfl

/-! ## Lemmas: the dumped text is long enough for the parser's fuel -/

theorem len_task (n : Nat) (t : Task) : 7 ≤ (dumpVal n (taskToJson t)).length := by
  rw [dump_task_head]
  simp [dumpMembers, joinSep, dumpStringChars, spaces, List.length_append]
  omega

theorem len_memo (n : Nat) (m : Memo) : 4 ≤ (dumpVal n (memoToJson m)).length := by
  rw [dump_memo_head]
  simp [dumpMembers, joinSep, dumpStringChars, spaces, List.length_append]
  omega

theorem len_join_tasks :
    ∀ (ts : List Task) (c : List Char), 7 ≤ c.length →
      7 * (ts.length + 1)
        ≤ (joinSep [',', '\n'] ((spaces 4 ++ c) :: dumpItems 4 (ts.map taskToJson))).length := by
  intro ts
  induction ts with
  | nil =>
      intro c hc
      simp [dumpItems, joinSep, List.length_append]
      omega
  | cons t ts ih =>
      intro c hc
      have h1 := ih (dumpVal 4 (taskToJson t)) (len_task 4 t)
      simp only [List.map, dumpItems, joinSep, List.length_append, List.length_cons,
        List.append_assoc] at h1 ⊢
      simp [List.length_append] at h1 ⊢
      omega

theorem len_join_memos :
    ∀ (ms : List Memo) (c : List Char), 4 ≤ c.length →
      4 * (ms.length + 1)
        ≤ (joinSep [',', '\n'] ((spaces 4 ++ c) :: dumpItems 4 (ms.map memoToJson))).length := by
  intro ms
  induction ms with
  | nil =>
      intro c hc
      simp [dumpItems, joinSep, List.length_append]
      omega
  | cons m ms ih =>
      intro c hc
      have h1 := ih (dumpVal 4 (memoToJson m)) (len_memo 4 m)
      simp only [List.map, dumpItems, joinSep, List.length_append, List.length_cons,
        List.append_assoc] at h1 ⊢
      simp [List.length_append] at h1 ⊢
      omega

theorem len_tasksArr (ts : List Task) :
    7 * ts.length ≤ (dumpVal 2 (.arr (ts.map taskToJson))).length := by
  cases ts with
  | nil => simp
  | cons t ts' =>
      rw [show (t :: ts').map taskToJson
          = taskToJson t :: ts'.map taskToJson from rfl]
      rw [dump_arr_cons2]
      have h := len_join_tasks ts' (dumpVal 4 (taskToJson t)) (len_task 4 t)
      simp [List.length_append] at h ⊢
      omega

theorem len_memosArr (ms : List Memo) :
    4 * ms.length ≤ (dumpVal 2 (.arr (ms.map memoToJson))).length := by
  cases ms with
  | nil => simp
  | cons m ms' =>
      rw [show (m :: ms').map memoToJson
          = memoToJson m :: ms'.map memoToJson from rfl]
      rw [dump_arr_cons2]
      have h := len_join_memos ms' (dumpVal 4 (memoToJson m)) (len_memo 4 m)
      simp [List.length_append] at h ⊢
      omega

theorem len_result (r : Result) :
    7 * r.tasks.length + 4 * r.memos.length + 7
      ≤ (dumpVal 0 (resultToJson r)).length := by
  obtain ⟨ts, ms⟩ := r
  have h := congrArg List.length
    (dump_result_shape (Json.arr (ts.map taskToJson)) (Json.arr (ms.map memoToJson)) [])
  rw [List.append_nil] at h
  rw [show resultToJson ⟨ts, ms⟩
      = Json.obj [("tasks", Json.arr (ts.map taskToJson)),
          ("memos", Json.arr (ms.map memoToJson))] from rfl]
  rw [h]
  have h1 := len_tasksArr ts
  have h2 := len_memosArr ms
  simp [List.length_append, spaces] at h1 h2 ⊢
  omega

/-! ## The JSON round trip -/

theorem loads_dumps (r : Result) :
    json_loads (dumps (resultToJson r)) = some (resultToJson r) := by
  show (match parseValue ((dumps (resultToJson r)).toList.length + 1)
        (dumps (resultToJson r)).toList with
      | some (j, rest) => if ws rest = [] then some j else none
      | none => none) = some (resultToJson r)
  rw [show (dumps (resultToJson r)).toList = dumpVal 0 (resultToJson r) from rfl]
  have hlen := len_result r
  obtain ⟨f, hf⟩ : ∃ f, (dumpVal 0 (resultToJson r)).length + 1
      = f + (7 * r.tasks.length + 4 * r.memos.length + 8) :=
    ⟨(dumpVal 0 (resultToJson r)).length + 1
      - (7 * r.tasks.length + 4 * r.memos.length + 8), by omega⟩
  rw [hf]
  have hv := ve_result f r []
  rw [List.append_nil] at hv
  rw [hv]
  rfl

theorem taskFromJson_to (t : Task) : taskFromJson (taskToJson t) = some t := by
  obtain ⟨c, a, p, d⟩ := t
  cases d <;> rfl

theorem tasksFromJson_map (ts : List Task) :
    tasksFromJson (ts.map taskToJson) = some ts := by
  induction ts with
  | nil => rfl
  | cons t ts ih => simp [tasksFromJson, taskFromJson_to, ih]

theorem memoFromJson_to (m : Memo) : memoFromJson (memoToJson m) = some m := rfl

theorem memosFromJson_map (ms : List Memo) :
    memosFromJson (ms.map memoToJson) = some ms := by
  induction ms with
  | nil => rfl
  | cons m ms ih => simp [memosFromJson, memoFromJson_to, ih]

theorem jsonToResult_to (r : Result) : jsonToResult (resultToJson r) = some r := by
  obtain ⟨ts, ms⟩ := r
  simp [resultToJson, jsonToResult, tasksFromJson_map, memosFromJson_map]

/-! ## Lemmas: exporters -/

theorem foldl_step_concat {α : Type} (body : String → α → String) (g : α → String)
    (hstep : ∀ md x, body md x = md ++ g x) :
    ∀ (l : List α) (init : String), l.foldl body init = init ++ strConcat (l.map g) := by
  intro l
  induction l with
  | nil => intro init; simp [strConcat]
  | cons x l ih =>
      intro init
      simp only [List.foldl, List.map, strConcat, hstep]
      rw [ih, String.append_assoc]

/-! ## Lemmas: the extraction client -/

theorem process_input_run (env : String → List ContentPart → CallResult)
    (text : String) (image : Option ImageFile) (audio : Option AudioFile)
    (hne : ¬ (pyStrip text = "" ∧ image = none ∧ audio = none)) :
    process_input env text image audio
      = tryModels env (image.isSome || audio.isSome) (content_parts text image audio)
          candidate_models none := by
  unfold process_input
  rw [if_neg hne]

theorem tryModels_cons (env : String → List ContentPart → CallResult) (media : Bool)
    (parts : List ContentPart) (m : String) (rest : List String)
    (last : Option LastErr) :
    tryModels env media parts (m :: rest) last
      = if media ∧ ¬ is_multimodal m then tryModels env media parts rest last
        else
          match env m parts with
          | .exn msg =>
              ⟨(tryModels env media parts rest (some (.callExn msg))).result,
               (m, parts) :: (tryModels env media parts rest (some (.callExn msg))).calls⟩
          | .ok t =>
              match json_loads t with
              | some j => ⟨.ok j, [(m, parts)]⟩
              | none =>
                  ⟨(tryModels env media parts rest (some .decodeErr)).result,
                   (m, parts) :: (tryModels env media parts rest (some .decodeErr)).calls⟩ :=
  rfl

theorem tryModels_cons_ok {env : String → List ContentPart → CallResult} {media : Bool}
    {parts : List ContentPart} {m : String} {rest : List String} {last : Option LastErr}
    {t : String} {j : Json}
    (hm : is_multimodal m = true) (he : env m parts = .ok t)
    (hj : json_loads t = some j) :
    tryModels env media parts (m :: rest) last = ⟨.ok j, [(m, parts)]⟩ := by
  rw [tryModels_cons, if_neg (fun hand => hand.2 hm), he]
  dsimp only
  rw [hj]

theorem tryModels_cons_exn {env : String → List ContentPart → CallResult} {media : Bool}
    {parts : List ContentPart} {m : String} {rest : List String} {last : Option LastErr}
    {e : String}
    (hm : is_multimodal m = true) (he : env m parts = .exn e) :
    tryModels env media parts (m :: rest) last
      = ⟨(tryModels env media parts rest (some (.callExn e))).result,
         (m, parts) :: (tryModels env media parts rest (some (.callExn e))).calls⟩ := by
  rw [tryModels_cons, if_neg (fun hand => hand.2 hm), he]

theorem tryModels_cons_badjson {env : String → List ContentPart → CallResult}
    {media : Bool} {parts : List ContentPart} {m : String} {rest : List String}
    {last : Option LastErr} {t : String}
    (hm : is_multimodal m = true) (he : env m parts = .ok t)
    (hj : json_loads t = none) :
    tryModels env media parts (m :: rest) last
      = ⟨(tryModels env media parts rest (some .decodeErr)).result,
         (m, parts) :: (tryModels env media parts rest (some .decodeErr)).calls⟩ := by
  rw [tryModels_cons, if_neg (fun hand => hand.2 hm), he]
  dsimp only
  rw [hj]

theorem tryModels_parts (env : String → List ContentPart → CallResult) (media : Bool)
    (parts : List ContentPart) :
    ∀ (models : List String) (last : Option LastErr),
      ∀ pr ∈ (tryModels env media parts models last).calls, pr.2 = parts := by
  intro models
  induction models with
  | nil =>
      intro last pr h
      simp [tryModels] at h
  | cons m rest ih =>
      intro last pr h
      rw [tryModels_cons] at h
      by_cases hskip : media ∧ ¬ is_multimodal m
      · rw [if_pos hskip] at h
        exact ih last pr h
      · rw [if_neg hskip] at h
        cases hc : env m parts with
        | exn msg =>
            rw [hc] at h
            simp only [List.mem_cons] at h
            rcases h with h | h
            · simp [h]
            · exact ih _ pr h
        | ok t =>
            rw [hc] at h
            dsimp only at h
            cases hj : json_loads t with
            | some j =>
                rw [hj] at h
                simp only [List.mem_cons, List.not_mem_nil, or_false] at h
                simp [h]
            | none =>
                rw [hj] at h
                simp only [List.mem_cons] at h
                rcases h with h | h
                · simp [h]
                · exact ih _ pr h

theorem pyStrip_blank (text : String) (h : text.toList.all isPySpace = true) :
    pyStrip text = "" := by
  unfold pyStrip
  have h1 : text.toList.dropWhile isPySpace = [] :=
    List.dropWhile_eq_nil_iff.mpr (fun x hx => by
      have := List.all_eq_true.mp h x hx
      simpa using this)
  rw [h1]
  rfl

/-! ## Claims -/

/-- C1: for every non-empty input, the candidate list is the fixed two-element
ordered list; the first candidate whose call and JSON parse both succeed wins
(when the first candidate succeeds, the second is never attempted); when the
first candidate fails — whether by a call exception or a JSON parse failure —
the error is recorded and the second candidate is tried; its parsed result is
returned and no further candidate exists or is attempted; when both fail, the
aggregate error carries the last recorded error. -/
theorem claim_C1_fallback_order (env : String → List ContentPart → CallResult)
    (text : String) (image : Option ImageFile) (audio : Option AudioFile)
    (hne : ¬ (pyStrip text = "" ∧ image = none ∧ audio = none)) :
    candidate_models = ["gemini-3-flash-preview", "gemini-1.5-flash"]
    ∧ (∀ t j, env ("gemini-3-flash-preview") (content_parts text image audio) = .ok t →
        json_loads t = some j →
        process_input env text image audio
          = ⟨.ok j, [("gemini-3-flash-preview", content_parts text image audio)]⟩)
    ∧ (∀ e t j,
        env ("gemini-3-flash-preview") (content_parts text image audio) = .exn e →
        env ("gemini-1.5-flash") (content_parts text image audio) = .ok t →
        json_loads t = some j →
        process_input env text image audio
          = ⟨.ok j, [("gemini-3-flash-preview", content_parts text image audio),
                     ("gemini-1.5-flash", content_parts text image audio)]⟩)
    ∧ (∀ t1 t2 j,
        env ("gemini-3-flash-preview") (content_parts text image audio) = .ok t1 →
        json_loads t1 = none →
        env ("gemini-1.5-flash") (content_parts text image audio) = .ok t2 →
        json_loads t2 = some j →
        process_input env text image audio
          = ⟨.ok j, [("gemini-3-flash-preview", content_parts text image audio),
                     ("gemini-1.5-flash", content_parts text image audio)]⟩)
    ∧ (∀ e1 e2,
        env ("gemini-3-flash-preview") (content_parts text image audio) = .exn e1 →
        env ("gemini-1.5-flash") (content_parts text image audio) = .exn e2 →
        process_input env text image audio
          = ⟨.error (some (.callExn e2)),
             [("gemini-3-flash-preview", content_parts text image audio),
              ("gemini-1.5-flash", content_parts text image audio)]⟩) := by
  refine ⟨rfl, ?_, ?_, ?_, ?_⟩
  · intro t j h1 h2
    rw [process_input_run env text image audio hne]
    rw [show candidate_models
        = ("gemini-3-flash-preview") :: ["gemini-1.5-flash"] from rfl]
    rw [tryModels_cons_ok (by decide) h1 h2]
  · intro e t j h1 h2 h3
    rw [process_input_run env text image audio hne]
    rw [show candidate_models
        = ("gemini-3-flash-preview") :: ["gemini-1.5-flash"] from rfl]
    rw [tryModels_cons_exn (by decide) h1]
    rw [show (["gemini-1.5-flash"] : List String)
        = ("gemini-1.5-flash") :: [] from rfl]
    rw [tryModels_cons_ok (by decide) h2 h3]
  · intro t1 t2 j h1 h2 h3 h4
    rw [process_input_run env text image audio hne]
    rw [show candidate_models
        = ("gemini-3-flash-preview") :: ["gemini-1.5-flash"] from rfl]
    rw [tryModels_cons_badjson (by decide) h1 h2]
    rw [show (["gemini-1.5-flash"] : List String)
        = ("gemini-1.5-flash") :: [] from rfl]
    rw [tryModels_cons_ok (by decide) h3 h4]
  · intro e1 e2 h1 h2
    rw [process_input_run env text image audio hne]
    rw [show candidate_models
        = ("gemini-3-flash-preview") :: ["gemini-1.5-flash"] from rfl]
    rw [tryModels_cons_exn (by decide) h1]
    rw [show (["gemini-1.5-flash"] : List String)
        = ("gemini-1.5-flash") :: [] from rfl]
    rw [tryModels_cons_exn (by decide) h2]
    rfl

/-- C1 witness: with a concrete environment where the first candidate raises
and the second returns the JSON object text, the result is the second
candidate's parsed value after both candidates were attempted in order. -/
theorem claim_C1_fallback_order_witness :
    ¬ (pyStrip ("hi") = "" ∧ (none : Option ImageFile) = none
        ∧ (none : Option AudioFile) = none)
    ∧ process_input
        (fun n _ => if n = "gemini-3-flash-preview" then CallResult.exn ("boom")
                    else CallResult.ok ("\x7b\x7d"))
        ("hi") none none
        = ⟨.ok (Json.obj []),
           [("gemini-3-flash-preview", [ContentPart.text ("hi")]),
            ("gemini-1.5-flash", [ContentPart.text ("hi")])]⟩ := by
  refine ⟨by decide, ?_⟩
  exact (claim_C1_fallback_order
    (fun n _ => if n = "gemini-3-flash-preview" then CallResult.exn ("boom")
                else CallResult.ok ("\x7b\x7d"))
    ("hi") none none (by decide)).2.2.1 ("boom") ("\x7b\x7d") (Json.obj []) rfl rfl rfl

/-- C2 counterexample: an environment where the first candidate's call succeeds
with a body that is not valid JSON and the second candidate succeeds.  Contrary
to the claim, the parse failure does act as a fallback trigger: the request is
retried with the second candidate model, which is attempted and whose parsed
result is returned. -/
theorem claim_C2_counterexample :
    (process_input
        (fun n _ => if n = "gemini-3-flash-preview" then CallResult.ok ("not json")
                    else CallResult.ok ("\x7b\x7d"))
        ("hi") none none).calls.map Prod.fst
      = ["gemini-3-flash-preview", "gemini-1.5-flash"]
    ∧ (process_input
        (fun n _ => if n = "gemini-3-flash-preview" then CallResult.ok ("not json")
                    else CallResult.ok ("\x7b\x7d"))
        ("hi") none none).result = .ok (Json.obj [])
    ∧ (fun n (_ : List ContentPart) =>
        if n = "gemini-3-flash-preview" then CallResult.ok ("not json")
        else CallResult.ok ("\x7b\x7d")) ("gemini-3-flash-preview")
          [ContentPart.text ("hi")] = CallResult.ok ("not json")
    ∧ json_loads ("not json") = none :=
  ⟨rfl, rfl, rfl, rfl⟩

/-- C2 amended: if a candidate's call succeeds but its body is not valid JSON,
the decode error is recorded like any other failure and the next candidate is
tried; the parse failure propagates only when every candidate fails, as the
last error inside the aggregate failure. -/
theorem claim_C2_parse_failure_falls_back (env : String → List ContentPart → CallResult)
    (text : String) (image : Option ImageFile) (audio : Option AudioFile)
    (hne : ¬ (pyStrip text = "" ∧ image = none ∧ audio = none)) :
    (∀ t1 t2 j,
      env ("gemini-3-flash-preview") (content_parts text image audio) = .ok t1 →
      json_loads t1 = none →
      env ("gemini-1.5-flash") (content_parts text image audio) = .ok t2 →
      json_loads t2 = some j →
      process_input env text image audio
        = ⟨.ok j, [("gemini-3-flash-preview", content_parts text image audio),
                   ("gemini-1.5-flash", content_parts text image audio)]⟩)
    ∧ (∀ t1 t2,
      env ("gemini-3-flash-preview") (content_parts text image audio) = .ok t1 →
      json_loads t1 = none →
      env ("gemini-1.5-flash") (content_parts text image audio) = .ok t2 →
      json_loads t2 = none →
      process_input env text image audio
        = ⟨.error (some .decodeErr),
           [("gemini-3-flash-preview", content_parts text image audio),
            ("gemini-1.5-flash", content_parts text image audio)]⟩) := by
  constructor
  · intro t1 t2 j h1 h2 h3 h4
    rw [process_input_run env text image audio hne]
    rw [show candidate_models
        = ("gemini-3-flash-preview") :: ["gemini-1.5-flash"] from rfl]
    rw [tryModels_cons_badjson (by decide) h1 h2]
    rw [show (["gemini-1.5-flash"] : List String)
        = ("gemini-1.5-flash") :: [] from rfl]
    rw [tryModels_cons_ok (by decide) h3 h4]
  · intro t1 t2 h1 h2 h3 h4
    rw [process_input_run env text image audio hne]
    rw [show candidate_models
        = ("gemini-3-flash-preview") :: ["gemini-1.5-flash"] from rfl]
    rw [tryModels_cons_badjson (by decide) h1 h2]
    rw [show (["gemini-1.5-flash"] : List String)
        = ("gemini-1.5-flash") :: [] from rfl]
    rw [tryModels_cons_badjson (by decide) h3 h4]
    rfl

/-- C2 amended witness: with both candidates returning non-JSON bodies, the
aggregate error carries the decode failure and both candidates were tried. -/
theorem claim_C2_parse_failure_falls_back_witness :
    ¬ (pyStrip ("hi") = "" ∧ (none : Option ImageFile) = none
        ∧ (none : Option AudioFile) = none)
    ∧ process_input (fun _ _ => CallResult.ok ("not json")) ("hi") none none
        = ⟨.error (some .decodeErr),
           [("gemini-3-flash-preview", [ContentPart.text ("hi")]),
            ("gemini-1.5-flash", [ContentPart.text ("hi")])]⟩ := by
  refine ⟨by decide, ?_⟩
  exact (claim_C2_parse_failure_falls_back (fun _ _ => CallResult.ok ("not json"))
    ("hi") none none (by decide)).2 ("not json") ("not json") rfl rfl rfl rfl

/-- C3: for an all-empty input — text empty or whitespace-only, no image and
no audio — process_input returns the empty Result immediately and no provider
call is made (the call trace is empty). -/
theorem claim_C3_empty_input (env : String → List ContentPart → CallResult)
    (text : String) (h : text.toList.all isPySpace = true) :
    process_input env text none none = ⟨.ok (Json.obj []), []⟩ := by
  unfold process_input
  rw [if_pos ⟨pyStrip_blank text h, rfl, rfl⟩]

/-- C3 witness: whitespace-only text with no media yields the empty Result and
an empty call trace, for an environment that would fail if it were called. -/
theorem claim_C3_empty_input_witness :
    ("  ").toList.all isPySpace = true
    ∧ process_input (fun _ _ => CallResult.exn ("e")) ("  ") none none
        = ⟨.ok (Json.obj []), []⟩ :=
  ⟨by decide, claim_C3_empty_input (fun _ _ => CallResult.exn ("e")) ("  ") (by decide)⟩

/-- C4: for every non-empty input, every provider call is issued with the
content parts in this exact order — first one text part (the user text when
non-empty, otherwise the generic instruction string), then an image part with
the image's declared MIME type and bytes when an image is present, then an
audio part with the fixed MIME type "audio/wav" and the audio bytes when audio
is present. -/
theorem claim_C4_content_parts (env : String → List ContentPart → CallResult)
    (text : String) (image : Option ImageFile) (audio : Option AudioFile)
    (hne : ¬ (pyStrip text = "" ∧ image = none ∧ audio = none)) :
    ∀ pr ∈ (process_input env text image audio).calls,
      pr.2 = (if text ≠ "" then [ContentPart.text text]
              else [ContentPart.text ("Analyze this content and extract tasks/memos.")])
            ++ (match image with
                | some f => [ContentPart.inlineData f.type f.data]
                | none => [])
            ++ (match audio with
                | some f => [ContentPart.inlineData ("audio/wav") f.data]
                | none => []) := by
  intro pr hpr
  rw [process_input_run env text image audio hne] at hpr
  have h := tryModels_parts env (image.isSome || audio.isSome)
    (content_parts text image audio) candidate_models none pr hpr
  rw [h]
  cases image <;> cases audio <;> rfl

/-- C4 witness: the first recorded call of a concrete run carries exactly the
single user-text part. -/
theorem claim_C4_content_parts_witness :
    ("gemini-3-flash-preview", [ContentPart.text ("hi")])
      ∈ (process_input (fun _ _ => CallResult.exn ("e")) ("hi") none none).calls
    ∧ (("gemini-3-flash-preview", [ContentPart.text ("hi")])
        : String × List ContentPart).2
      = (if ("hi" : String) ≠ "" then [ContentPart.text ("hi")]
         else [ContentPart.text ("Analyze this content and extract tasks/memos.")])
        ++ ([] : List ContentPart) ++ ([] : List ContentPart) := by
  refine ⟨by decide, ?_⟩
  exact claim_C4_content_parts (fun _ _ => CallResult.exn ("e")) ("hi") none none
    (by decide) ("gemini-3-flash-preview", [ContentPart.text ("hi")]) (by decide)

/-- C5: with no configured shared secret, the auth gate denies access for every
session state (hence for every submitted password) and reports the
configuration error — fail-closed. -/
theorem claim_C5_fail_closed :
    ∀ st : AuthState,
      check_password none st
        = { allowed := false, config_error := true, wrong_password_error := false } :=
  fun _ => rfl

/-- C6: with the secret configured, a submission authenticates exactly when the
submitted password equals the secret; on mismatch the phase stays
AwaitingPassword, access is denied and the wrong-password error is shown; a
correct submission authenticates, is idempotent on the session state, and the
gate then grants access. -/
theorem claim_C6_auth_transitions :
    (∀ (secret p : String) (st : AuthState),
      phase (submit secret p st) = .Authenticated ↔ p = secret)
    ∧ (∀ (secret p : String) (st : AuthState), p ≠ secret →
        phase (submit secret p st) = .AwaitingPassword
        ∧ (check_password (some secret) (submit secret p st)).allowed = false
        ∧ (check_password (some secret) (submit secret p st)).wrong_password_error = true)
    ∧ (∀ (secret : String) (st : AuthState),
        submit secret secret (submit secret secret st) = submit secret secret st
        ∧ phase (submit secret secret st) = .Authenticated
        ∧ (check_password (some secret) (submit secret secret st)).allowed = true) := by
  refine ⟨?_, ?_, ?_⟩
  · intro secret p st
    by_cases hp : p = secret <;> simp [submit, password_entered, phase, hp]
  · intro secret p st hp
    simp [submit, password_entered, phase, check_password, hp]
  · intro secret st
    simp [submit, password_entered, phase, check_password]

/-- C6 witness: a wrong submission against the configured secret leaves the
gate awaiting a password with the error shown. -/
theorem claim_C6_auth_transitions_witness :
    (("x") : String) ≠ ("s")
    ∧ (phase (submit ("s") ("x") ⟨none, none⟩) = .AwaitingPassword
        ∧ (check_password (some ("s")) (submit ("s") ("x") ⟨none, none⟩)).allowed = false
        ∧ (check_password (some ("s"))
            (submit ("s") ("x") ⟨none, none⟩)).wrong_password_error = true) :=
  ⟨by decide, claim_C6_auth_transitions.2.1 ("s") ("x") ⟨none, none⟩ (by decide)⟩

/-- C7: the JSON export round trip — serializing a Result's
`{"tasks": ..., "memos": ...}` object with `json.dumps(..., indent=2,
ensure_ascii=False)` and parsing it back with `json.loads` recovers exactly the
same JSON value, and that value determines exactly the original tasks and
memos. -/
theorem claim_C7_json_roundtrip :
    ∀ r : Result,
      json_loads (dumps (resultToJson r)) = some (resultToJson r)
      ∧ jsonToResult (resultToJson r) = some r :=
  fun r => ⟨loads_dumps r, jsonToResult_to r⟩

/-- C8: the Markdown export follows the fixed template — heading, a Tasks
section with one bullet per task of the form `[category] action <glyph>` (the
🔥 glyph exactly when priority is the sentinel "High", 🔹 otherwise) with the
` (📅 deadline)` suffix exactly when the task carries a (non-empty) deadline,
then a Memos section with one bullet per memo; both sections render with no
bullet lines when the lists are empty, and the concrete example task renders
`[Work] Buy milk`, 🔥 and `(📅 2024-01-01)`. -/
theorem claim_C8_markdown_template :
    (∀ (tasks : List Task) (memos : List Memo),
      convert_to_markdown tasks memos
        = "# Brain Cleaner Results\n\n" ++ "## ✅ Tasks\n"
          ++ strConcat (tasks.map (fun t =>
              "- [" ++ t.category ++ "] " ++ t.action ++ " "
                ++ (if t.priority = "High" then "🔥" else "🔹")
                ++ (if pyTruthyOpt t.deadline
                    then " (📅 " ++ t.deadline.getD ("") ++ ")" else "")
                ++ "\n"))
          ++ "\n## 💡 Memos\n"
          ++ strConcat (memos.map (fun m => "- " ++ m.content ++ "\n")))
    ∧ convert_to_markdown [] [] = "# Brain Cleaner Results\n\n## ✅ Tasks\n\n## 💡 Memos\n"
    ∧ ((splitLines (convert_to_markdown [] []).toList).all
        (fun l => !(listStarts ('-' :: ' ' :: []) l))) = true
    ∧ containsSub ("[Work] Buy milk").toList
        (convert_to_markdown [⟨"Work", "Buy milk", "High", some ("2024-01-01")⟩] []).toList
        = true
    ∧ containsSub ("🔥").toList
        (convert_to_markdown [⟨"Work", "Buy milk", "High", some ("2024-01-01")⟩] []).toList
        = true
    ∧ containsSub ("(📅 2024-01-01)").toList
        (convert_to_markdown [⟨"Work", "Buy milk", "High", some ("2024-01-01")⟩] []).toList
        = true := by
  refine ⟨?_, by rfl, by rfl, by rfl, by rfl, by rfl⟩
  intro tasks memos
  show (memos.foldl (fun md m => md ++ "- " ++ m.content ++ "\n")
      ((tasks.foldl (fun md t =>
          let p_icon := if t.priority = "High" then "🔥" else "🔹"
          let md := md ++ "- [" ++ t.category ++ "] " ++ t.action ++ " " ++ p_icon
          let md := if pyTruthyOpt t.deadline
                    then md ++ " (📅 " ++ t.deadline.getD ("") ++ ")" else md
          md ++ "\n")
        ("# Brain Cleaner Results\n\n" ++ "## ✅ Tasks\n")) ++ "\n## 💡 Memos\n"))
    = _
  rw [foldl_step_concat _
    (fun m => "- " ++ m.content ++ "\n")
    (by intro md m; simp [String.append_assoc])]
  rw [foldl_step_concat _
    (fun t => "- [" ++ t.category ++ "] " ++ t.action ++ " "
      ++ (if t.priority = "High" then "🔥" else "🔹")
      ++ (if pyTruthyOpt t.deadline then " (📅 " ++ t.deadline.getD ("") ++ ")" else "")
      ++ "\n")
    (by
      intro md t
      by_cases hd : pyTruthyOpt t.deadline
        <;> simp [hd, String.append_assoc])]

/-- C9: CSV export — the empty record list yields the empty string; the
one-record list with category/action/priority and a null deadline yields the
`category,action,priority,deadline` header row followed by the matching data
row (deadline rendered empty), encoded as UTF-8 with a byte-order mark. -/
theorem claim_C9_csv_examples :
    convert_to_csv [] = .text ("")
    ∧ convert_to_csv [[("category", some ("Work")), ("action", some ("Buy milk")),
        ("priority", some ("High")), ("deadline", none)]]
        = .bytes (bomBytes ++ utf8Bytes
            ("category,action,priority,deadline\nWork,Buy milk,High,\n").toList)
    ∧ csvText [[("category", some ("Work")), ("action", some ("Buy milk")),
        ("priority", some ("High")), ("deadline", none)]]
        = "category,action,priority,deadline\nWork,Buy milk,High,\n"
    ∧ containsSub ("category,action,priority,deadline").toList
        (csvText [[("category", some ("Work")), ("action", some ("Buy milk")),
          ("priority", some ("High")), ("deadline", none)]]).toList = true :=
  ⟨rfl, rfl, rfl, rfl⟩

/-- C10: `convert_to_csv` returns the empty text string for the empty record
list, and for every non-empty record list it returns a byte sequence — the CSV
text encoded as UTF-8 prefixed with the byte-order mark — never a text
string. -/
theorem claim_C10_csv_return_type :
    convert_to_csv [] = .text ("")
    ∧ (∀ (r : CsvRecord) (rest : List CsvRecord),
        convert_to_csv (r :: rest)
          = .bytes (bomBytes ++ utf8Bytes (csvText (r :: rest)).toList)
        ∧ ∀ s, convert_to_csv (r :: rest) ≠ .text s) := by
  refine ⟨rfl, fun r rest => ⟨?_, ?_⟩⟩
  · simp [convert_to_csv]
  · intro s h
    simp [convert_to_csv] at h

/-- C10 witness: a concrete non-empty record list returns BOM-prefixed UTF-8
bytes and is not equal to any text value, here the empty text. -/
theorem claim_C10_csv_return_type_witness :
    convert_to_csv [[("category", some ("Work"))]]
        = .bytes (bomBytes
            ++ utf8Bytes (csvText [[("category", some ("Work"))]]).toList)
    ∧ convert_to_csv [[("category", some ("Work"))]] ≠ .text ("") :=
  ⟨(claim_C10_csv_return_type.2 [("category", some ("Work"))] []).1,
   (claim_C10_csv_return_type.2 [("category", some ("Work"))] []).2 ("")⟩

end JustDraft
